import Mathlib

/-!
Shallow embedding of the go-envvar binding engine (the `ParseWithConfig` /
`structStack` variant of `envvar.go`, the one the specification calls the
canonical design) together with theorems settling the specification claims.

Modelling conventions:
* Go's environment lookup `Getenv` is an explicit function `String → Option String`
  (`some` ⟺ found).
* Struct tags are per-field metadata: `envvarTag`/`defaultTag` are `Option String`
  (`Tag.Lookup` presence); `tagGet` models `Tag.Get`, which collapses an absent
  tag and an empty one to `""`.
* Reflection values are the inductive `Val`; in-place mutation becomes explicit
  state passing: each parsing function returns the updated value together with
  the list of collected errors (the Go code appends errors to a slice and
  returns `ErrorList`).
* Machine integers are `Int`/`Nat`: `strconv.Atoi` / `strconv.ParseUint(·,10,64)`
  are modelled exactly (base-10 digits, sign handling, 64-bit range errors) and
  `reflect.Value.SetInt` / `SetUint` truncation into a narrower field is the
  explicit `% 2 ^ w` wrap.
* The `encoding.TextUnmarshaler` capability is a function
  `String → Except String String` (raw value to either an error cause or the
  unmarshaler's new internal state) attached to the type; `Ty.unmStructT`
  models a struct type that also implements the interface.  Float, duration
  and pointer-to-unmarshaler leaves are outside the modelled fragment — no
  claim concerns them.
-/

namespace GoEnvvar

/-- Field-level errors of the package: `UnsetVariableError`,
`InvalidVariableError` (with the underlying cause rendered as a string) and
`InvalidFieldError`. -/
inductive Err where
  | unsetVariable (varName : String)
  | invalidVariable (varName : String) (varValue : String) (cause : String)
  | invalidField (name : String) (message : String)
deriving DecidableEq, Repr

/-- Result of `ParseWithConfig`: either the single structural
`InvalidArgumentError` or the aggregated `ErrorList`. -/
inductive ParseError where
  | invalidArgument (message : String)
  | errorList (errors : List Err)
deriving DecidableEq, Repr

/-- Go's `encoding.TextUnmarshaler` capability: raw text to either an error
cause or the new internal state of the receiver. -/
def Unmarshaler : Type := String → Except String String

mutual
/-- Field types of the modelled fragment.  `intT w` / `uintT w` are the signed
and unsigned integer kinds of width `w` bits (Go `int` is `intT 64`);
`structT` / `ptrStructT` are a nested struct and a pointer to one (neither
implementing `TextUnmarshaler`); `unmT` is a leaf type implementing
`TextUnmarshaler` and `unmStructT` a struct type implementing it. -/
inductive Ty where
  | str
  | intT (w : Nat)
  | uintT (w : Nat)
  | boolT
  | structT (fs : List Field)
  | ptrStructT (fs : List Field)
  | unmT (u : Unmarshaler)
  | unmStructT (u : Unmarshaler) (fs : List Field)

/-- One struct field: identifier, optional `envvar` tag, optional `default`
tag (present-with-empty-string is distinct from absent, as with
`reflect.StructTag.Lookup`), and its type. -/
inductive Field where
  | mk (name : String) (envvarTag : Option String) (defaultTag : Option String) (ty : Ty)
end

/-- Name of a field. -/
def Field.name : Field → String
  | .mk n _ _ _ => n

/-- The `envvar` tag of a field, `none` when absent. -/
def Field.envvarTag : Field → Option String
  | .mk _ t _ _ => t

/-- The `default` tag of a field, `none` when absent. -/
def Field.defaultTag : Field → Option String
  | .mk _ _ d _ => d

/-- Declared type of a field. -/
def Field.ty : Field → Ty
  | .mk _ _ _ t => t

/-- Runtime values (`reflect.Value`) of the modelled fragment.  `vnil` is a nil
pointer to a struct, `vptr` a non-nil one, `vunm` the internal state of a
value implementing `TextUnmarshaler`. -/
inductive Val where
  | vstr (s : String)
  | vint (x : Int)
  | vuint (n : Nat)
  | vbool (b : Bool)
  | vstruct (vs : List Val)
  | vnil
  | vptr (vs : List Val)
  | vunm (state : String)

/-- The `reflect.StructTag.Get` view of an optional tag: an absent tag reads
as the empty string. -/
def tagGet : Option String → String
  | none => ""
  | some s => s

mutual
/-- Zero value of a type, as produced by `reflect.New` (a freshly allocated
struct is zero-initialized; a pointer field is nil). -/
def tyZero : Ty → Val
  | .str => .vstr ""
  | .intT _ => .vint 0
  | .uintT _ => .vuint 0
  | .boolT => .vbool false
  | .structT fs => .vstruct (zeroFields fs)
  | .ptrStructT _ => .vnil
  | .unmT _ => .vunm ""
  | .unmStructT _ _ => .vunm ""

/-- Zero values of a list of fields. -/
def zeroFields : List Field → List Val
  | [] => []
  | .mk _ _ _ ty :: fs => tyZero ty :: zeroFields fs
end

/-- Numeric value of a list of decimal digits. -/
def digitsToNat (cs : List Char) : Nat :=
  cs.foldl (fun acc c => acc * 10 + (c.toNat - '0'.toNat)) 0

/-- Model of `strconv.ParseUint(s, 10, 64)`: a nonempty all-digit string whose
value fits in 64 bits; no sign character is accepted.  The error strings
mirror `strconv.ErrSyntax` and `strconv.ErrRange`. -/
def goParseUint64 (s : String) : Except String Nat :=
  let cs := s.toList
  if cs.isEmpty then .error "invalid syntax"
  else if cs.all Char.isDigit then
    let n := digitsToNat cs
    if n < 2 ^ 64 then .ok n else .error "value out of range"
  else .error "invalid syntax"

/-- Model of `strconv.Atoi` (equivalently `strconv.ParseInt(s, 10, 64)` on a
64-bit platform): an optional sign followed by digits, value within the
signed 64-bit range. -/
def goAtoi (s : String) : Except String Int :=
  match s.toList with
  | [] => .error "invalid syntax"
  | c :: rest =>
    let neg : Bool := c = '-'
    let digits : List Char := if c = '-' ∨ c = '+' then rest else c :: rest
    if digits.isEmpty then .error "invalid syntax"
    else if digits.all Char.isDigit then
      let n := digitsToNat digits
      if neg then
        if n ≤ 2 ^ 63 then .ok (-(n : Int)) else .error "value out of range"
      else
        if n < 2 ^ 63 then .ok (n : Int) else .error "value out of range"
    else .error "invalid syntax"

/-- Model of `strconv.ParseBool`: the exact spellings it accepts. -/
def goParseBool (s : String) : Option Bool :=
  if s = "1" ∨ s = "t" ∨ s = "T" ∨ s = "true" ∨ s = "TRUE" ∨ s = "True" then some true
  else if s = "0" ∨ s = "f" ∨ s = "F" ∨ s = "false" ∨ s = "FALSE" ∨ s = "False" then some false
  else none

/-- Two's-complement truncation of an integer into `w` bits, the conversion
performed by `reflect.Value.SetInt` when the destination kind is narrower
than 64 bits (Go's `int8(x)` and friends). -/
def wrapSigned (w : Nat) (x : Int) : Int :=
  let m : Int := 2 ^ w
  let r := x % m
  if r < 2 ^ (w - 1) then r else r - m

/-- The environment lookup collaborator (`Config.Getenv`). -/
def Getenv : Type := String → Option String

/-- Model of `cleverMaybeTextUnmarshaler`: whether the field's type — or,
fields being addressable, its address — implements `TextUnmarshaler`, and if
so which parser.  In the embedding the capability is an attribute of the
type, so the value/address two-step collapses to reading it off. -/
def cleverMaybeTextUnmarshaler : Ty → Option Unmarshaler
  | .unmT u => some u
  | .unmStructT u _ => some u
  | _ => none

/-- Model of `setUnmarshFieldVal`: first component is whether unmarshalling
was attempted; when attempted, the outcome is the new field value (the
receiver's mutated state) or an `InvalidVariableError` wrapping the variable
name, the raw value and the cause. -/
def setUnmarshFieldVal (ty : Ty) (cur : Val) (name v : String) : Bool × Val × Option Err :=
  match cleverMaybeTextUnmarshaler ty with
  | some u =>
    match u v with
    | .error cause => (true, cur, some (.invalidVariable name v cause))
    | .ok st => (true, .vunm st, none)
  | none => (false, cur, none)

/-- Model of `setFieldVal`: custom-parser dispatch first, then the built-in
primitive conversions selected by the field's kind.  For a narrower integer
destination the parsed 64-bit value is truncated by `SetInt` / `SetUint`
(the `% 2 ^ w` wrap), exactly as in the Go code.  The duration special case
and float kinds are outside the modelled fragment. -/
def setFieldVal (ty : Ty) (cur : Val) (name v : String) : Val × Option Err :=
  match setUnmarshFieldVal ty cur name v with
  | (true, r, e) => (r, e)
  | (false, _, _) =>
    match ty with
    | .str => (.vstr v, none)
    | .intT w =>
      match goAtoi v with
      | .error cause => (cur, some (.invalidVariable name v cause))
      | .ok x => (.vint (wrapSigned w x), none)
    | .uintT w =>
      match goParseUint64 v with
      | .error cause => (cur, some (.invalidVariable name v cause))
      | .ok n => (.vuint (n % 2 ^ w), none)
    | .boolT =>
      match goParseBool v with
      | none => (cur, some (.invalidVariable name v "invalid syntax"))
      | some b => (.vbool b, none)
    | _ => (cur, some (.invalidField name "Unsupported struct field type"))

/-- Model of `foundDefaultTagError`: a `default` tag on a nested struct field
is a usage error. -/
def foundDefaultTagError (name : String) (dtag : Option String) : Option Err :=
  match dtag with
  | some _ => some (.invalidField name "default tag is not supported for nested structs.")
  | none => none

/-- Current field values of a struct-typed field (zero-filled fallback keeps
the function total; Go's reflection guarantees the shapes agree). -/
def structVals (fs : List Field) : Val → List Val
  | .vstruct vs => vs
  | _ => zeroFields fs

/-- Target of a pointer-to-struct field after the nil check of `parseField`:
a nil pointer is first allocated via `reflect.New`, i.e. zero-initialized. -/
def ptrVals (fs : List Field) : Val → List Val
  | .vptr vs => vs
  | _ => zeroFields fs

/-- First value of a field-value list (zero fallback for totality). -/
def headVal (f : Field) : List Val → Val
  | v :: _ => v
  | [] => tyZero f.ty

mutual
/-- Model of `structStack.parseStruct`: visit every field in declaration
order, pair the collected errors — an `ErrorList` returned by a recursive
call is spliced in at the point of recursion, any other error is appended as
one element — and return the updated field values.  Success (`[]`) means zero
errors were collected. -/
def parseStruct (getenv : Getenv) (pfx : String) : List Field → List Val → List Val × List Err
  | [], _ => ([], [])
  | f :: fs, vs =>
    let r := parseField getenv pfx f (headVal f vs)
    let rest := parseStruct getenv pfx fs vs.tail
    (r.1 :: rest.1, r.2 ++ rest.2)

/-- Model of `structStack.parseField`.  A struct or pointer-to-struct field
that does not implement `TextUnmarshaler` (constructors `structT` /
`ptrStructT`; `unmStructT` carries the capability and therefore falls to the
leaf path, exactly as the `cleverMaybeTextUnmarshaler` shortcut does) is
recursed into with prefix `pfx ++ customName` after the `default`-tag usage
check — for a pointer field the nil target is allocated before that check.
Every other field resolves as a leaf: the environment value if found, else
the default tag if present, else `UnsetVariableError` with the derived
variable name. -/
def parseField (getenv : Getenv) (pfx : String) : Field → Val → Val × List Err
  | .mk name etag dtag ty, v =>
    let customName := tagGet etag
    let varName := if customName = "" then name else customName
    match ty with
    | .structT fs =>
      match foundDefaultTagError name dtag with
      | some e => (v, [e])
      | none =>
        let r := parseStruct getenv (pfx ++ customName) fs (structVals fs v)
        (.vstruct r.1, r.2)
    | .ptrStructT fs =>
      let vs := ptrVals fs v
      match foundDefaultTagError name dtag with
      | some e => (.vptr vs, [e])
      | none =>
        let r := parseStruct getenv (pfx ++ customName) fs vs
        (.vptr r.1, r.2)
    | ty =>
      let derivedVarName := pfx ++ varName
      match getenv derivedVarName with
      | some envVal =>
        let r := setFieldVal ty v derivedVarName envVal
        (r.1, r.2.toList)
      | none =>
        match dtag with
        | some defaultVal =>
          let r := setFieldVal ty v derivedVarName defaultVal
          (r.1, r.2.toList)
        | none => (v, [.unsetVariable derivedVarName])
end

/-- Destination argument of `ParseWithConfig`: anything that is not a pointer
to a struct, a typed nil pointer to a struct, or a non-nil pointer to a
struct value (type and current field values). -/
inductive Arg where
  | notStructRef (desc : String)
  | nilRef (fs : List Field)
  | structRef (fs : List Field) (vs : List Val)

/-- Model of `ParseWithConfig`: the structural argument checks, then
`parseStruct` over the top-level fields with the configured prefix.  The
returned pair is the (possibly mutated) destination and the error, `none` on
success. -/
def ParseWithConfig (getenv : Getenv) (pfx : String) : Arg → Arg × Option ParseError
  | .notStructRef d =>
    (.notStructRef d,
      some (.invalidArgument ("Error in Parse: type must be a pointer to a struct. Got: " ++ d)))
  | .nilRef fs => (.nilRef fs, some (.invalidArgument "Error in Parse: argument cannot be nil"))
  | .structRef fs vs =>
    let r := parseStruct getenv pfx fs vs
    (.structRef fs r.1,
      match r.2 with
      | [] => none
      | es => some (.errorList es))

/-- Resolved variable name of a field before prefixing: the `envvar` tag when
it reads as nonempty, else the field identifier. -/
def varNameOf : Field → String
  | .mk name etag _ _ => if tagGet etag = "" then name else tagGet etag

/-- Whether `parseField` treats a field of this type as a leaf (it does for
every type except a struct or pointer-to-struct that does not implement
`TextUnmarshaler`). -/
def treatedAsLeaf : Ty → Bool
  | .structT _ => false
  | .ptrStructT _ => false
  | _ => true

/-- Resolution of a leaf field when the environment lookup finds a value: the
found value is converted, any default tag notwithstanding. -/
theorem parseField_leaf_found (getenv : Getenv) (pfx : String) (f : Field) (v : Val) (s : String)
    (hleaf : treatedAsLeaf f.ty = true)
    (hs : getenv (pfx ++ varNameOf f) = some s) :
    parseField getenv pfx f v =
      ((setFieldVal f.ty v (pfx ++ varNameOf f) s).1,
       (setFieldVal f.ty v (pfx ++ varNameOf f) s).2.toList) := by
  obtain ⟨name, etag, dtag, ty⟩ := f
  cases ty <;> simp_all [parseField, varNameOf, treatedAsLeaf, Field.ty]

/-- Resolution of a leaf field when the lookup misses but a `default` tag is
present: the default value (possibly empty) is converted. -/
theorem parseField_leaf_default (getenv : Getenv) (pfx : String) (f : Field) (v : Val) (d : String)
    (hleaf : treatedAsLeaf f.ty = true)
    (hn : getenv (pfx ++ varNameOf f) = none)
    (hd : f.defaultTag = some d) :
    parseField getenv pfx f v =
      ((setFieldVal f.ty v (pfx ++ varNameOf f) d).1,
       (setFieldVal f.ty v (pfx ++ varNameOf f) d).2.toList) := by
  obtain ⟨name, etag, dtag, ty⟩ := f
  cases ty <;> simp_all [parseField, varNameOf, treatedAsLeaf, Field.ty, Field.defaultTag]

/-- Resolution of a leaf field when the lookup misses and no `default` tag is
present: the field value is untouched and an `UnsetVariableError` carrying
the derived variable name is recorded. -/
theorem parseField_leaf_unset (getenv : Getenv) (pfx : String) (f : Field) (v : Val)
    (hleaf : treatedAsLeaf f.ty = true)
    (hd : f.defaultTag = none)
    (hn : getenv (pfx ++ varNameOf f) = none) :
    parseField getenv pfx f v = (v, [Err.unsetVariable (pfx ++ varNameOf f)]) := by
  obtain ⟨name, etag, dtag, ty⟩ := f
  cases ty <;> simp_all [parseField, varNameOf, treatedAsLeaf, Field.ty, Field.defaultTag]

/-- Claim C1: for every leaf field, resolution follows exactly the three-way
policy — a found environment value (even the empty string) is used and any
`default` tag ignored; otherwise a present `default` tag (even an empty one)
supplies the raw value; otherwise the field fails with `UnsetVariableError`
carrying the fully resolved key, the accumulated prefix plus the
name-override-or-identifier. -/
theorem c1_leaf_resolution (getenv : Getenv) (pfx : String) (f : Field) (v : Val)
    (hleaf : treatedAsLeaf f.ty = true) :
    (∀ s, getenv (pfx ++ varNameOf f) = some s →
      parseField getenv pfx f v =
        ((setFieldVal f.ty v (pfx ++ varNameOf f) s).1,
         (setFieldVal f.ty v (pfx ++ varNameOf f) s).2.toList)) ∧
    (getenv (pfx ++ varNameOf f) = none →
      ∀ d, f.defaultTag = some d →
      parseField getenv pfx f v =
        ((setFieldVal f.ty v (pfx ++ varNameOf f) d).1,
         (setFieldVal f.ty v (pfx ++ varNameOf f) d).2.toList)) ∧
    (getenv (pfx ++ varNameOf f) = none → f.defaultTag = none →
      parseField getenv pfx f v = (v, [Err.unsetVariable (pfx ++ varNameOf f)])) :=
  ⟨fun s hs => parseField_leaf_found getenv pfx f v s hleaf hs,
   fun hn d hd => parseField_leaf_default getenv pfx f v d hleaf hn hd,
   fun hn hd => parseField_leaf_unset getenv pfx f v hleaf hd hn⟩

/-- Witness for C1: a string field with override `FOO` and a nonempty default
tag, bound from an environment where `FOO` is set to the empty string — the
found empty value wins over the default. -/
theorem c1_witness :
    parseField (fun k => if k = "FOO" then some "" else none) ""
      (Field.mk "F" (some "FOO") (some "dflt") Ty.str) (Val.vstr "old") = (Val.vstr "", []) := by
  have h := (c1_leaf_resolution (fun k => if k = "FOO" then some "" else none) ""
      (Field.mk "F" (some "FOO") (some "dflt") Ty.str) (Val.vstr "old") rfl).1 "" (by decide)
  simpa [setFieldVal, setUnmarshFieldVal, cleverMaybeTextUnmarshaler, varNameOf, tagGet,
    Field.ty] using h

/-- Claim C2: the walker visits every field even after earlier failures, an
`ErrorList` from a recursive call is spliced in at the point of recursion,
binding succeeds exactly when zero field-level errors were collected, a
returned error report is never empty, and a record of required unset leaf
fields yields exactly one `UnsetVariableError` per field in declaration
order. -/
theorem c2_error_aggregation :
    (∀ getenv : Getenv, ∀ pfx fs vs,
      (ParseWithConfig getenv pfx (.structRef fs vs)).2 = none ↔
        (parseStruct getenv pfx fs vs).2 = []) ∧
    (∀ getenv : Getenv, ∀ pfx fs vs errs,
      (ParseWithConfig getenv pfx (.structRef fs vs)).2 = some (.errorList errs) → errs ≠ []) ∧
    (∀ getenv : Getenv, ∀ pfx f fs vs,
      parseStruct getenv pfx (f :: fs) vs =
        ((parseField getenv pfx f (headVal f vs)).1 :: (parseStruct getenv pfx fs vs.tail).1,
         (parseField getenv pfx f (headVal f vs)).2 ++ (parseStruct getenv pfx fs vs.tail).2)) ∧
    (∀ getenv : Getenv, ∀ pfx fs,
      ∀ vs : List Val,
      (∀ f ∈ fs, treatedAsLeaf f.ty = true ∧ f.defaultTag = none ∧
        getenv (pfx ++ varNameOf f) = none) →
      (parseStruct getenv pfx fs vs).2 =
        fs.map fun f => Err.unsetVariable (pfx ++ varNameOf f)) := by
  refine ⟨?_, ?_, ?_, ?_⟩
  · intro getenv pfx fs vs
    cases h : (parseStruct getenv pfx fs vs).2 <;> simp [ParseWithConfig, h]
  · intro getenv pfx fs vs errs hsome
    cases h : (parseStruct getenv pfx fs vs).2 with
    | nil => simp [ParseWithConfig, h] at hsome
    | cons e es =>
      simp [ParseWithConfig, h] at hsome
      simp [← hsome]
  · intro getenv pfx f fs vs
    simp [parseStruct]
  · intro getenv pfx fs
    induction fs with
    | nil => intro vs _; simp [parseStruct]
    | cons f fs ih =>
      intro vs h
      have hf := h f (by simp)
      have h2 := parseField_leaf_unset getenv pfx f (headVal f vs) hf.1 hf.2.1 hf.2.2
      simp [parseStruct, h2, ih vs.tail (fun g hg => h g (by simp [hg]))]

/-- Witness for C2: a record with three required fields and an empty
environment produces exactly three `UnsetVariableError`s in declaration
order. -/
theorem c2_witness :
    (parseStruct (fun _ => none) ""
      [Field.mk "A" none none Ty.str, Field.mk "B" none none (Ty.intT 64),
       Field.mk "C" none none Ty.boolT]
      [Val.vstr "", Val.vint 0, Val.vbool false]).2 =
      [Err.unsetVariable "A", Err.unsetVariable "B", Err.unsetVariable "C"] := by
  have h := c2_error_aggregation.2.2.2 (fun _ => none) ""
    [Field.mk "A" none none Ty.str, Field.mk "B" none none (Ty.intT 64),
     Field.mk "C" none none Ty.boolT]
    [Val.vstr "", Val.vint 0, Val.vbool false] (by decide)
  simpa [varNameOf, tagGet] using h

/-- Claim C3: a field whose type (or its addressable reference form)
satisfies the `TextUnmarshaler` capability is handed to the custom parser
before any built-in conversion, is treated as a leaf — never recursed into,
even when its underlying type is a struct (`Ty.unmStructT`), so its result
is fully determined by the custom parser — and a parser failure is
propagated as `InvalidVariableError` wrapping the field's key, the raw value
and the underlying cause. -/
theorem c3_custom_unmarshal (getenv : Getenv) (pfx : String) (f : Field) (v : Val)
    (u : Unmarshaler) (s : String)
    (hu : cleverMaybeTextUnmarshaler f.ty = some u)
    (hs : getenv (pfx ++ varNameOf f) = some s) :
    parseField getenv pfx f v =
      (match u s with
       | .ok st => (Val.vunm st, [])
       | .error cause => (v, [Err.invalidVariable (pfx ++ varNameOf f) s cause])) := by
  obtain ⟨name, etag, dtag, ty⟩ := f
  cases ty
  case unmT u2 =>
    obtain rfl : u2 = u := by simpa [cleverMaybeTextUnmarshaler, Field.ty] using hu
    cases hus : u2 s <;>
      simp_all [parseField, varNameOf, setFieldVal, setUnmarshFieldVal,
        cleverMaybeTextUnmarshaler]
  case unmStructT u2 fs =>
    obtain rfl : u2 = u := by simpa [cleverMaybeTextUnmarshaler, Field.ty] using hu
    cases hus : u2 s <;>
      simp_all [parseField, varNameOf, setFieldVal, setUnmarshFieldVal,
        cleverMaybeTextUnmarshaler]
  all_goals simp [cleverMaybeTextUnmarshaler, Field.ty] at hu

/-- Witness for C3: a struct-shaped type with an always-failing custom parser
produces the wrapped `InvalidVariableError`; its inner required field is
never looked at. -/
theorem c3_witness :
    parseField (fun _ => some "raw") ""
      (Field.mk "C" none none
        (Ty.unmStructT (fun t => Except.error ("bad " ++ t)) [Field.mk "X" none none Ty.str]))
      (Val.vunm "") =
      (Val.vunm "", [Err.invalidVariable "C" "raw" "bad raw"]) := by
  have h := c3_custom_unmarshal (fun _ => some "raw") ""
    (Field.mk "C" none none
      (Ty.unmStructT (fun t => Except.error ("bad " ++ t)) [Field.mk "X" none none Ty.str]))
    (Val.vunm "") (fun t => Except.error ("bad " ++ t)) "raw" rfl rfl
  simpa using h

/-- Claim C4: the recursive call for a nested struct field (by value or by
pointer) uses exactly the enclosing prefix concatenated with the field's
`envvar` tag as read by `Tag.Get`, so an absent or empty override
contributes nothing; a leaf's key is the accumulated prefix plus its own
override-or-identifier, and in particular an outer field with override `A_`
containing an inner field with override `X` queries the key `A_X`. -/
theorem c4_nested_prefix :
    (∀ getenv : Getenv, ∀ pfx name : String, ∀ etag : Option String, ∀ fs : List Field, ∀ v : Val,
      parseField getenv pfx (.mk name etag none (.structT fs)) v =
        (.vstruct (parseStruct getenv (pfx ++ tagGet etag) fs (structVals fs v)).1,
         (parseStruct getenv (pfx ++ tagGet etag) fs (structVals fs v)).2)) ∧
    (∀ getenv : Getenv, ∀ pfx name : String, ∀ etag : Option String, ∀ fs : List Field, ∀ v : Val,
      parseField getenv pfx (.mk name etag none (.ptrStructT fs)) v =
        (.vptr (parseStruct getenv (pfx ++ tagGet etag) fs (ptrVals fs v)).1,
         (parseStruct getenv (pfx ++ tagGet etag) fs (ptrVals fs v)).2)) ∧
    (∀ pfx : String, pfx ++ tagGet none = pfx ∧ pfx ++ tagGet (some "") = pfx) ∧
    (parseStruct (fun k => if k = "A_X" then some "1" else none) ""
        [Field.mk "A" (some "A_") none (Ty.structT [Field.mk "X" (some "X") none Ty.str])]
        [Val.vstruct [Val.vstr ""]] =
      ([Val.vstruct [Val.vstr "1"]], [])) := by
  refine ⟨?_, ?_, ?_, ?_⟩
  · intro getenv pfx name etag fs v
    simp [parseField, foundDefaultTagError]
  · intro getenv pfx name etag fs v
    simp [parseField, foundDefaultTagError]
  · intro pfx
    exact ⟨String.append_empty pfx, String.append_empty pfx⟩
  · simp [parseStruct, parseField, headVal, tagGet, foundDefaultTagError, structVals,
      setFieldVal, setUnmarshFieldVal, cleverMaybeTextUnmarshaler]

/-- Counterexample to C5 as stated: conversion into an 8-bit destination does
NOT fail when the parsed value exceeds the target width — `300` binds into a
`uint8` field as `44` and into an `int8` field as `44` with no error, because
the code parses at 64 bits (`strconv.Atoi`, `strconv.ParseUint(·,10,64)`) and
`reflect.Value.SetInt`/`SetUint` silently truncate to the field's width. -/
theorem c5_counterexample :
    setFieldVal (Ty.uintT 8) (Val.vuint 0) "N" "300" = (Val.vuint 44, none) ∧
    setFieldVal (Ty.intT 8) (Val.vint 0) "N" "300" = (Val.vint 44, none) := by
  constructor <;> rfl

/-- Claim C5 (amended): signed integer conversion parses the raw value as a
base-10 integer and fails with `InvalidVariableError` on non-numeric input
or when the value does not fit 64 bits; a value that fits 64 bits but not
the field's narrower width is silently truncated (two's-complement wrap),
not rejected.  Unsigned conversion fails on non-numeric input, on any sign
character (hence on negative values) and on values not fitting 64 bits, and
likewise truncates modulo the narrower target width. -/
theorem c5_integer_conversion :
    (∀ w : Nat, ∀ cur : Val, ∀ name s : String, ∀ x : Int, goAtoi s = .ok x →
      setFieldVal (.intT w) cur name s = (.vint (wrapSigned w x), none)) ∧
    (∀ w : Nat, ∀ cur : Val, ∀ name s c : String, goAtoi s = .error c →
      setFieldVal (.intT w) cur name s = (cur, some (.invalidVariable name s c))) ∧
    (∀ w : Nat, ∀ cur : Val, ∀ name s : String, ∀ n : Nat, goParseUint64 s = .ok n →
      setFieldVal (.uintT w) cur name s = (.vuint (n % 2 ^ w), none)) ∧
    (∀ w : Nat, ∀ cur : Val, ∀ name s c : String, goParseUint64 s = .error c →
      setFieldVal (.uintT w) cur name s = (cur, some (.invalidVariable name s c))) ∧
    goAtoi "abc" = .error "invalid syntax" ∧
    goAtoi "9223372036854775808" = .error "value out of range" ∧
    goAtoi "-9223372036854775809" = .error "value out of range" ∧
    goParseUint64 "-1" = .error "invalid syntax" ∧
    goParseUint64 "18446744073709551616" = .error "value out of range" := by
  refine ⟨?_, ?_, ?_, ?_, rfl, rfl, rfl, rfl, rfl⟩
  · intro w cur name s x h
    simp [setFieldVal, setUnmarshFieldVal, cleverMaybeTextUnmarshaler, h]
  · intro w cur name s c h
    simp [setFieldVal, setUnmarshFieldVal, cleverMaybeTextUnmarshaler, h]
  · intro w cur name s n h
    simp [setFieldVal, setUnmarshFieldVal, cleverMaybeTextUnmarshaler, h]
  · intro w cur name s c h
    simp [setFieldVal, setUnmarshFieldVal, cleverMaybeTextUnmarshaler, h]

/-- Witness for the amended C5: a negative in-range signed value, an
unsigned value wrapped into 16 bits, and a non-numeric failure. -/
theorem c5_witness :
    setFieldVal (Ty.intT 8) (Val.vint 0) "N" "-7" = (Val.vint (wrapSigned 8 (-7)), none) ∧
    setFieldVal (Ty.uintT 16) (Val.vuint 0) "N" "70000" = (Val.vuint (70000 % 2 ^ 16), none) ∧
    setFieldVal (Ty.intT 64) (Val.vint 0) "N" "abc" =
      (Val.vint 0, some (Err.invalidVariable "N" "abc" "invalid syntax")) :=
  ⟨c5_integer_conversion.1 8 (Val.vint 0) "N" "-7" (-7) rfl,
   c5_integer_conversion.2.2.1 16 (Val.vuint 0) "N" "70000" 70000 rfl,
   c5_integer_conversion.2.1 64 (Val.vint 0) "N" "abc" "invalid syntax" rfl⟩

/-- Claim C6: a `default` tag on a nested struct field (by value or by
pointer) is recorded as the field-level usage error with message
`default tag is not supported for nested structs.` and the recursion is
skipped — the result does not depend on the environment at all, so it is
irrelevant whether the inner fields would have bound successfully. -/
theorem c6_default_on_nested (getenv : Getenv) (pfx : String) (name : String)
    (etag : Option String) (d : String) (v : Val) :
    (∀ fs : List Field,
      parseField getenv pfx (.mk name etag (some d) (.structT fs)) v =
        (v, [Err.invalidField name "default tag is not supported for nested structs."])) ∧
    (∀ fs : List Field,
      parseField getenv pfx (.mk name etag (some d) (.ptrStructT fs)) v =
        (.vptr (ptrVals fs v),
         [Err.invalidField name "default tag is not supported for nested structs."])) := by
  constructor <;> intro fs <;> simp [parseField, foundDefaultTagError]

/-- Claim C7: an argument that is not a non-nil pointer to a struct makes
`ParseWithConfig` fail immediately with the single structural
`InvalidArgumentError` — the destination is returned untouched, the result
does not depend on the lookup function (no field-level work happens), and
the error is not an `ErrorList`. -/
theorem c7_invalid_argument (getenv : Getenv) (pfx : String) :
    (∀ d : String,
      ParseWithConfig getenv pfx (.notStructRef d) =
        (.notStructRef d,
         some (.invalidArgument ("Error in Parse: type must be a pointer to a struct. Got: " ++ d)))) ∧
    (∀ fs : List Field,
      ParseWithConfig getenv pfx (.nilRef fs) =
        (.nilRef fs, some (.invalidArgument "Error in Parse: argument cannot be nil"))) :=
  ⟨fun _ => rfl, fun _ => rfl⟩

/-- Claim C8: a nil pointer-to-struct field without a `default` tag is first
allocated zero-initialized and then recursed into, so the resulting outer
field is a non-nil pointer to the recursively bound inner record. -/
theorem c8_nil_reference_allocated (getenv : Getenv) (pfx name : String)
    (etag : Option String) (fs : List Field) :
    parseField getenv pfx (.mk name etag none (.ptrStructT fs)) Val.vnil =
      (.vptr (parseStruct getenv (pfx ++ tagGet etag) fs (zeroFields fs)).1,
       (parseStruct getenv (pfx ++ tagGet etag) fs (zeroFields fs)).2) := by
  simp [parseField, foundDefaultTagError, ptrVals]

/-- Claim C9: for a nil pointer-to-struct field that carries a `default`
tag, the allocation happens before the default-tag usage check, so the
returned field value is already a non-nil pointer to a zero-initialized
record even though the usage error is reported. -/
theorem c9_alloc_before_default_check (getenv : Getenv) (pfx name : String)
    (etag : Option String) (d : String) (fs : List Field) :
    parseField getenv pfx (.mk name etag (some d) (.ptrStructT fs)) Val.vnil =
      (.vptr (zeroFields fs),
       [Err.invalidField name "default tag is not supported for nested structs."]) := by
  simp [parseField, foundDefaultTagError, ptrVals]

/-- Claim C10: an `envvar` tag whose value is the empty string is
observationally indistinguishable from an absent tag — `parseField` produces
the same result for any type, environment and prefix — and in particular a
leaf's variable name is then the field identifier itself. -/
theorem c10_empty_override (getenv : Getenv) (pfx name : String) (dtag : Option String)
    (ty : Ty) (v : Val) :
    parseField getenv pfx (.mk name (some "") dtag ty) v =
      parseField getenv pfx (.mk name none dtag ty) v ∧
    varNameOf (.mk name (some "") dtag ty) = name := by
  constructor
  · cases ty <;> simp [parseField, tagGet]
  · simp [varNameOf, tagGet]
